import Mathlib

/-!
Verification of the clusterloader2 measurement and chaos engine.

This file gives a shallow embedding of the relevant Go functions of the
repository and proves spec-level properties about them.

Modelling conventions:
* Go float64 values (failure rates, CPU usage, throughput samples) are
  modelled as rationals; for the arithmetic performed here (multiplication
  by a list length followed by floor/truncation, comparisons, sorting) the
  float computations of the source are exact for all realistic magnitudes,
  so the rational model is faithful.
* Go `sets.String` is modelled as `Finset String`.
* Channel-driven loops are modelled as functions over the (finite) list of
  observations delivered before the stop signal fires.
* Values obtained from external collaborators (the Kubernetes API, SSH,
  the Prometheus query executor) are parameters of the embedded functions.
-/

/-! ### chaos/nodes.go -/

/-- NodeFailureConfig from the api package (fields used by NodeKiller).
FailureRate is a float64 in Go, modelled as a rational. -/
structure NodeFailureConfig where
  failureRate : ℚ
  interval : ℕ
  jitterFactor : ℚ
  simulatedDowntime : ℕ
deriving DecidableEq

/-- v1.Node, restricted to the field NodeKiller reads (the name). -/
structure Node where
  name : String
deriving DecidableEq

/-- v1.Pod, restricted to the field pickNodes reads (Spec.NodeName). -/
structure Pod where
  nodeName : String
deriving DecidableEq

/-- NodeKiller struct from chaos/nodes.go; killedNodes is a sets.String. -/
structure NodeKiller where
  config : NodeFailureConfig
  provider : String
  killedNodes : Finset String
deriving DecidableEq

/-- NewNodeKiller from chaos/nodes.go: rejects providers other than
gce and gke, otherwise returns a killer with an empty killedNodes set. -/
def NewNodeKiller (config : NodeFailureConfig) (provider : String) :
    Except String NodeKiller :=
  if provider ≠ "gce" ∧ provider ≠ "gke" then
    .error ("provider " ++ provider ++ " is not supported by NodeKiller")
  else
    .ok { config := config, provider := provider, killedNodes := ∅ }

/-- The loop of pickNodes building nodesHasPrometheusPod: insert the node
name of every prometheus pod whose NodeName is nonempty. -/
def nodesHasPrometheusPod (prometheusPods : List Pod) : Finset String :=
  prometheusPods.foldl
    (fun s p => if p.nodeName ≠ "" then insert p.nodeName s else s) ∅

/-- The filter loop of pickNodes: keep the schedulable untainted nodes that
neither host a prometheus pod nor are already killed. -/
def eligibleNodes (allNodes : List Node) (promNodes killed : Finset String) :
    List Node :=
  allNodes.filter (fun n => decide (n.name ∉ promNodes ∧ n.name ∉ killed))

/-- pickNodes from chaos/nodes.go.  `allNodes` is the result of the external
call GetSchedulableUntainedNodes, `prometheusPods` the result of the external
pod listing, and `shuffle` stands for rand.Shuffle (an arbitrary permutation
supplied by the environment).  Go computes `int(FailureRate * float64(len))`,
which for a nonnegative rate is the floor; we model it with the integer
floor. -/
def pickNodes (failureRate : ℚ) (allNodes : List Node)
    (prometheusPods : List Pod) (killed : Finset String)
    (shuffle : List Node → List Node) : List Node :=
  let nodes := shuffle (eligibleNodes allNodes (nodesHasPrometheusPod prometheusPods) killed)
  let numNodes : ℤ := ⌊failureRate * (nodes.length : ℚ)⌋
  if (nodes.length : ℤ) > numNodes then nodes.take numNodes.toNat else nodes

/-- The killedNodes bookkeeping of kill from chaos/nodes.go: before any
worker is dispatched the loop inserts every selected node name into
killedNodes (the SSH work of the workers has no effect on this set). -/
def kill (killed : Finset String) (nodes : List Node) : Finset String :=
  nodes.foldl (fun s n => insert n.name s) killed

/-- One Run round worth of inputs delivered by the environment: the node
listing, the prometheus pod listing and the shuffle permutation used by
rand.Shuffle in that round. -/
structure RoundInput where
  allNodes : List Node
  prometheusPods : List Pod
  shuffle : List Node → List Node

/-- The sequence of node selections made by successive rounds of
NodeKiller.Run: each round picks nodes against the current killedNodes set
and then kill marks the selection as killed before the next round. -/
def runSelections (failureRate : ℚ) (killed : Finset String) :
    List RoundInput → List (List Node)
  | [] => []
  | inp :: rest =>
    pickNodes failureRate inp.allNodes inp.prometheusPods killed inp.shuffle ::
      runSelections failureRate
        (kill killed (pickNodes failureRate inp.allNodes inp.prometheusPods killed inp.shuffle))
        rest

/-! ### Basic lemmas about the chaos embedding -/

theorem mem_kill (killed : Finset String) (nodes : List Node) (x : String) :
    x ∈ kill killed nodes ↔ x ∈ killed ∨ ∃ n ∈ nodes, n.name = x := by
  induction nodes generalizing killed with
  | nil => simp [kill]
  | cons hd tl ih =>
    simp only [kill, List.foldl_cons] at *
    rw [ih]
    simp only [Finset.mem_insert, List.mem_cons]
    constructor
    · rintro ((h | h) | ⟨n, hn, rfl⟩)
      · exact Or.inr ⟨hd, Or.inl rfl, h.symm⟩
      · exact Or.inl h
      · exact Or.inr ⟨n, Or.inr hn, rfl⟩
    · rintro (h | ⟨n, (rfl | hn), rfl⟩)
      · exact Or.inl (Or.inr h)
      · exact Or.inl (Or.inl rfl)
      · exact Or.inr ⟨n, hn, rfl⟩

theorem killed_subset_kill (killed : Finset String) (nodes : List Node) :
    killed ⊆ kill killed nodes := by
  intro x hx
  exact (mem_kill killed nodes x).mpr (Or.inl hx)

theorem selected_mem_kill (killed : Finset String) (nodes : List Node)
    (n : Node) (hn : n ∈ nodes) : n.name ∈ kill killed nodes :=
  (mem_kill killed nodes n.name).mpr (Or.inr ⟨n, hn, rfl⟩)

theorem pickNodes_subset (failureRate : ℚ) (allNodes : List Node)
    (prometheusPods : List Pod) (killed : Finset String)
    (shuffle : List Node → List Node)
    (hsh : ∀ l, (shuffle l).Perm l) :
    ∀ n ∈ pickNodes failureRate allNodes prometheusPods killed shuffle,
      n ∈ eligibleNodes allNodes (nodesHasPrometheusPod prometheusPods) killed := by
  intro n hn
  unfold pickNodes at hn
  set nodes := shuffle (eligibleNodes allNodes (nodesHasPrometheusPod prometheusPods) killed) with hnodes
  have hmem : n ∈ nodes := by
    by_cases hc : (nodes.length : ℤ) > ⌊failureRate * (nodes.length : ℚ)⌋
    · simp only [hc, if_pos] at hn
      exact List.take_subset _ _ hn
    · simp only [hc, if_neg, not_false_iff] at hn
      exact hn
  exact ((hsh _).mem_iff).mp hmem

theorem mem_eligibleNodes (allNodes : List Node) (promNodes killed : Finset String)
    (n : Node) :
    n ∈ eligibleNodes allNodes promNodes killed ↔
      n ∈ allNodes ∧ n.name ∉ promNodes ∧ n.name ∉ killed := by
  simp [eligibleNodes, List.mem_filter]

theorem length_ite_take (r : ℚ) (hr : 0 ≤ r) (l : List Node) :
    (if (l.length : ℤ) > ⌊r * (l.length : ℚ)⌋ then
        l.take (⌊r * (l.length : ℚ)⌋).toNat else l).length
      = min l.length ⌊r * (l.length : ℚ)⌋₊ := by
  set q : ℚ := r * (l.length : ℚ) with hq
  have hq0 : 0 ≤ q := mul_nonneg hr (by positivity)
  have htn : (⌊q⌋).toNat = ⌊q⌋₊ := Int.floor_toNat q
  by_cases hc : (l.length : ℤ) > ⌊q⌋
  · rw [if_pos hc, List.length_take, htn]
    exact min_comm _ _
  · rw [if_neg hc]
    push_neg at hc
    omega

theorem pickNodes_length (failureRate : ℚ) (hr : 0 ≤ failureRate)
    (allNodes : List Node) (prometheusPods : List Pod) (killed : Finset String)
    (shuffle : List Node → List Node) (hsh : ∀ l, (shuffle l).Perm l) :
    (pickNodes failureRate allNodes prometheusPods killed shuffle).length =
      min (eligibleNodes allNodes (nodesHasPrometheusPod prometheusPods) killed).length
        ⌊failureRate * ((eligibleNodes allNodes (nodesHasPrometheusPod prometheusPods) killed).length : ℚ)⌋₊ := by
  have hlen : (shuffle (eligibleNodes allNodes (nodesHasPrometheusPod prometheusPods) killed)).length
      = (eligibleNodes allNodes (nodesHasPrometheusPod prometheusPods) killed).length :=
    (hsh _).length_eq
  rw [← hlen]
  exact length_ite_take failureRate hr
    (shuffle (eligibleNodes allNodes (nodesHasPrometheusPod prometheusPods) killed))

/-- C1: one chaos round's node selection returns exactly
min(|E|, floor(failureRate × |E|)) nodes, where E is the eligible set
(schedulable untainted nodes minus nodes hosting a prometheus pod minus
the already-killed set), and the selection is a subset of E, hence disjoint
from prometheus-pod nodes and from the already-killed set. -/
theorem pickNodes_selects_min_floor (failureRate : ℚ) (hr : 0 ≤ failureRate)
    (allNodes : List Node) (prometheusPods : List Pod) (killed : Finset String)
    (shuffle : List Node → List Node) (hsh : ∀ l, (shuffle l).Perm l) :
    (pickNodes failureRate allNodes prometheusPods killed shuffle).length =
      min (eligibleNodes allNodes (nodesHasPrometheusPod prometheusPods) killed).length
        ⌊failureRate * ((eligibleNodes allNodes (nodesHasPrometheusPod prometheusPods) killed).length : ℚ)⌋₊
    ∧ ∀ n ∈ pickNodes failureRate allNodes prometheusPods killed shuffle,
        n ∈ eligibleNodes allNodes (nodesHasPrometheusPod prometheusPods) killed
        ∧ n.name ∉ nodesHasPrometheusPod prometheusPods
        ∧ n.name ∉ killed := by
  refine ⟨pickNodes_length failureRate hr allNodes prometheusPods killed shuffle hsh, ?_⟩
  intro n hn
  have hmem := pickNodes_subset failureRate allNodes prometheusPods killed shuffle hsh n hn
  have h2 := (mem_eligibleNodes _ _ _ n).mp hmem
  exact ⟨hmem, h2.2.1, h2.2.2⟩

/-- Witness for C1 at a concrete input: three schedulable nodes, one of
which hosts a prometheus pod, rate 1/2, identity shuffle. -/
theorem pickNodes_selects_min_floor_witness :
    (0 : ℚ) ≤ 1/2
    ∧ (∀ l : List Node, (id l).Perm l)
    ∧ ((pickNodes (1/2) [⟨"a"⟩, ⟨"b"⟩, ⟨"c"⟩] [⟨"b"⟩] ∅ id).length =
        min (eligibleNodes [⟨"a"⟩, ⟨"b"⟩, ⟨"c"⟩] (nodesHasPrometheusPod [⟨"b"⟩]) ∅).length
          ⌊(1/2 : ℚ) * ((eligibleNodes [⟨"a"⟩, ⟨"b"⟩, ⟨"c"⟩] (nodesHasPrometheusPod [⟨"b"⟩]) ∅).length : ℚ)⌋₊
      ∧ ∀ n ∈ pickNodes (1/2) [⟨"a"⟩, ⟨"b"⟩, ⟨"c"⟩] [⟨"b"⟩] ∅ id,
          n ∈ eligibleNodes [⟨"a"⟩, ⟨"b"⟩, ⟨"c"⟩] (nodesHasPrometheusPod [⟨"b"⟩]) ∅
          ∧ n.name ∉ nodesHasPrometheusPod [⟨"b"⟩]
          ∧ n.name ∉ (∅ : Finset String)) :=
  ⟨by norm_num, fun l => List.Perm.refl l,
    pickNodes_selects_min_floor (1/2) (by norm_num) [⟨"a"⟩, ⟨"b"⟩, ⟨"c"⟩] [⟨"b"⟩] ∅ id
      (fun l => List.Perm.refl l)⟩

theorem killed_not_selected (failureRate : ℚ) (x : String) (inps : List RoundInput) :
    ∀ killed : Finset String,
      (∀ inp ∈ inps, ∀ l, (inp.shuffle l).Perm l) → x ∈ killed →
      ∀ sel ∈ runSelections failureRate killed inps, ∀ n ∈ sel, n.name ≠ x := by
  induction inps with
  | nil =>
    intro killed _ _ sel hsel
    simp [runSelections] at hsel
  | cons inp rest ih =>
    intro killed hsh hx sel hsel n hn heq
    simp only [runSelections, List.mem_cons] at hsel
    rcases hsel with rfl | hsel
    · have hsub := pickNodes_subset failureRate inp.allNodes inp.prometheusPods killed
        inp.shuffle (hsh inp (List.mem_cons_self _ _)) n hn
      have h2 := (mem_eligibleNodes _ _ _ n).mp hsub
      exact h2.2.2 (heq ▸ hx)
    · exact ih (kill killed (pickNodes failureRate inp.allNodes inp.prometheusPods killed inp.shuffle))
        (fun i hi l => hsh i (List.mem_cons_of_mem _ hi) l)
        (killed_subset_kill _ _ hx) sel hsel n hn heq

/-- C2: over any run of the chaos injector, a node selected in round i is
never selected again in any later round j: kill inserts every selected
node into killedNodes before dispatching its worker and pickNodes excludes
every member of killedNodes from the eligible set. -/
theorem killed_node_never_reselected (failureRate : ℚ) (inps : List RoundInput) :
    ∀ (killed0 : Finset String) (i j : ℕ) (si sj : List Node),
      (∀ inp ∈ inps, ∀ l, (inp.shuffle l).Perm l) → i < j →
      (runSelections failureRate killed0 inps)[i]? = some si →
      (runSelections failureRate killed0 inps)[j]? = some sj →
      ∀ n ∈ si, ∀ m ∈ sj, m.name ≠ n.name := by
  induction inps with
  | nil =>
    intro killed0 i j si sj _ _ hi _
    simp [runSelections] at hi
  | cons inp rest ih =>
    intro killed0 i j si sj hsh hij hi hj n hn m hm
    simp only [runSelections] at hi hj
    cases i with
    | zero =>
      rw [List.getElem?_cons_zero] at hi
      injection hi with hi
      subst hi
      cases j with
      | zero => omega
      | succ j2 =>
        rw [List.getElem?_cons_succ] at hj
        have hkill : n.name ∈
            kill killed0 (pickNodes failureRate inp.allNodes inp.prometheusPods killed0 inp.shuffle) :=
          selected_mem_kill _ _ n hn
        have hsel := List.getElem?_mem hj
        exact killed_not_selected failureRate n.name rest _
          (fun i2 hi2 l => hsh i2 (List.mem_cons_of_mem _ hi2) l) hkill sj hsel m hm
    | succ i2 =>
      cases j with
      | zero => omega
      | succ j2 =>
        rw [List.getElem?_cons_succ] at hi hj
        exact ih _ i2 j2 si sj
          (fun i3 hi3 l => hsh i3 (List.mem_cons_of_mem _ hi3) l)
          (by omega) hi hj n hn m hm

/-- Witness for C2: a two-round run over a single node with failure rate 1;
the node is selected (and killed) in round 0 and round 1 selects nothing. -/
theorem killed_node_never_reselected_witness :
    (∀ inp ∈ ([⟨[⟨"a"⟩], [], id⟩, ⟨[⟨"a"⟩], [], id⟩] : List RoundInput),
        ∀ l, (inp.shuffle l).Perm l)
    ∧ (0 : ℕ) < 1
    ∧ (runSelections 1 ∅ [⟨[⟨"a"⟩], [], id⟩, ⟨[⟨"a"⟩], [], id⟩])[0]? = some [⟨"a"⟩]
    ∧ (runSelections 1 ∅ [⟨[⟨"a"⟩], [], id⟩, ⟨[⟨"a"⟩], [], id⟩])[1]? = some []
    ∧ ∀ n ∈ [Node.mk "a"], ∀ m ∈ ([] : List Node), m.name ≠ n.name := by
  have hsh : ∀ inp ∈ ([⟨[⟨"a"⟩], [], id⟩, ⟨[⟨"a"⟩], [], id⟩] : List RoundInput),
      ∀ l, (inp.shuffle l).Perm l := by
    intro inp hinp l
    simp only [List.mem_cons, List.not_mem_nil, or_false] at hinp
    rcases hinp with rfl | rfl <;> exact List.Perm.refl l
  have h0 : (runSelections 1 ∅ [⟨[⟨"a"⟩], [], id⟩, ⟨[⟨"a"⟩], [], id⟩])[0]? = some [⟨"a"⟩] := by
    norm_num [runSelections, pickNodes, eligibleNodes, nodesHasPrometheusPod, kill]
  have h1 : (runSelections 1 ∅ [⟨[⟨"a"⟩], [], id⟩, ⟨[⟨"a"⟩], [], id⟩])[1]? = some [] := by
    norm_num [runSelections, pickNodes, eligibleNodes, nodesHasPrometheusPod, kill]
  exact ⟨hsh, Nat.zero_lt_one, h0, h1,
    killed_node_never_reselected 1 _ ∅ 0 1 [⟨"a"⟩] [] hsh Nat.zero_lt_one h0 h1⟩

/-- C10: NewNodeKiller returns an error for every provider other than gce
and gke; for those two it returns a killer whose killedNodes set is empty. -/
theorem newNodeKiller_spec (config : NodeFailureConfig) (provider : String) :
    ((provider ≠ "gce" ∧ provider ≠ "gke") → ∀ k, NewNodeKiller config provider ≠ .ok k)
    ∧ ((provider = "gce" ∨ provider = "gke") →
        NewNodeKiller config provider =
          .ok { config := config, provider := provider, killedNodes := ∅ }) := by
  constructor
  · intro h k
    simp [NewNodeKiller, h]
  · intro h
    have hno : ¬ (provider ≠ "gce" ∧ provider ≠ "gke") := by
      rcases h with h | h <;> simp [h]
    simp [NewNodeKiller, hno]

/-- Witness for C10 at the concrete providers aws (rejected) and gce
(accepted with an empty killedNodes set). -/
theorem newNodeKiller_spec_witness :
    (("aws" : String) ≠ "gce" ∧ ("aws" : String) ≠ "gke")
    ∧ (∀ k, NewNodeKiller ⟨1, 1, 0, 0⟩ "aws" ≠ .ok k)
    ∧ (("gce" : String) = "gce" ∨ ("gce" : String) = "gke")
    ∧ NewNodeKiller ⟨1, 1, 0, 0⟩ "gce" =
        .ok { config := ⟨1, 1, 0, 0⟩, provider := "gce", killedNodes := ∅ } :=
  ⟨⟨by decide, by decide⟩,
   (newNodeKiller_spec ⟨1, 1, 0, 0⟩ "aws").1 ⟨by decide, by decide⟩,
   Or.inl rfl,
   (newNodeKiller_spec ⟨1, 1, 0, 0⟩ "gce").2 (Or.inl rfl)⟩

/-! ### Scheduling throughput gather (SchedulingThroughput measurement) -/

/-- The percentile index of the gather code: Go computes
int(math.Ceil(float64(length*p)/100)) - 1; for the magnitudes involved the
float ceiling is exact, so this is the natural-number ceiling of n*p/100
minus one. -/
def percIndex (p n : ℕ) : ℕ := (n * p + 99) / 100 - 1

/-- The schedulingThroughput summary struct. -/
structure SchedulingThroughput where
  average : ℚ
  perc50 : ℚ
  perc90 : ℚ
  perc99 : ℚ
deriving DecidableEq

/-- The summary computation of the scheduling-throughput gather: when the
recorded series is nonempty it is sorted ascending and the average plus the
values at the 50/90/99 percentile indices are stored; an empty series keeps
the zero-valued summary.  Go indexes the sorted slice directly; `getD` with
default 0 models that access (the index is proved in range below). -/
def schedulingGatherSummary (throughputs : List ℚ) : SchedulingThroughput :=
  if 0 < throughputs.length then
    { average := throughputs.sum / (throughputs.length : ℚ)
      perc50 := (throughputs.insertionSort (· ≤ ·)).getD (percIndex 50 throughputs.length) 0
      perc90 := (throughputs.insertionSort (· ≤ ·)).getD (percIndex 90 throughputs.length) 0
      perc99 := (throughputs.insertionSort (· ≤ ·)).getD (percIndex 99 throughputs.length) 0 }
  else { average := 0, perc50 := 0, perc90 := 0, perc99 := 0 }

/-- Modelled from the spec: the canonical percentile rule of the spec,
sort ascending and take the element at index ceil(p*n/100) - 1 clamped to
[0, n-1] (clamping below 0 is implicit in natural subtraction). -/
def percentileCanonical (p : ℕ) (values : List ℚ) : ℚ :=
  (values.insertionSort (· ≤ ·)).getD
    (min (percIndex p values.length) (values.length - 1)) 0

theorem percIndex_le (p n : ℕ) (hp : p ≤ 100) : percIndex p n ≤ n - 1 := by
  unfold percIndex
  have h1 : (n * p + 99) / 100 ≤ (n * 100 + 99) / 100 :=
    Nat.div_le_div_right (Nat.add_le_add_right (Nat.mul_le_mul_left n hp) 99)
  have h2 : (n * 100 + 99) / 100 = n := by omega
  omega

theorem percentileCanonical_eq_unclamped (p : ℕ) (hp : p ≤ 100) (values : List ℚ) :
    percentileCanonical p values =
      (values.insertionSort (· ≤ ·)).getD (percIndex p values.length) 0 := by
  unfold percentileCanonical
  rw [min_eq_left (percIndex_le p values.length hp)]

theorem percIndex_hundred (n : ℕ) : percIndex 100 n = n - 1 := by
  unfold percIndex
  omega

theorem percentileCanonical_hundred_eq_max (values : List ℚ) (hv : values ≠ []) :
    percentileCanonical 100 values ∈ values
    ∧ ∀ x ∈ values, x ≤ percentileCanonical 100 values := by
  have hn : 0 < values.length := List.length_pos.mpr hv
  have hlen : (values.insertionSort (· ≤ ·)).length = values.length :=
    List.length_insertionSort _ _
  have hidx : values.length - 1 < (values.insertionSort (· ≤ ·)).length := by omega
  have hval : percentileCanonical 100 values =
      (values.insertionSort (· ≤ ·))[values.length - 1] := by
    rw [percentileCanonical_eq_unclamped 100 le_rfl values, percIndex_hundred]
    exact List.getD_eq_getElem _ 0 hidx
  constructor
  · rw [hval]
    exact (List.perm_insertionSort _ _).subset (List.getElem_mem hidx)
  · intro x hx
    have hx2 : x ∈ values.insertionSort (· ≤ ·) :=
      ((List.perm_insertionSort (· ≤ ·) values).mem_iff).mpr hx
    obtain ⟨i, hi, hix⟩ := List.mem_iff_getElem.mp hx2
    rw [hval, ← hix]
    have hsorted : (values.insertionSort (· ≤ ·)).Sorted (· ≤ ·) :=
      List.sorted_insertionSort _ _
    have : (values.insertionSort (· ≤ ·)).get ⟨i, hi⟩ ≤
        (values.insertionSort (· ≤ ·)).get ⟨values.length - 1, hidx⟩ :=
      List.Sorted.rel_get_of_le hsorted (by simp [Fin.le_def]; omega)
    simpa using this

/-- C3: the scheduling-throughput gather computes its 50/90/99 percentiles
by the canonical rule (sorted ascending, index ceil(p*n/100) - 1 clamped
to [0, n-1]); the canonical percentile at 100 is the maximum of the
values, and the canonical percentile at 50 of [1,2,3,4] is 2. -/
theorem scheduling_percentiles_canonical (throughputs : List ℚ) (h : throughputs ≠ []) :
    (schedulingGatherSummary throughputs).perc50 = percentileCanonical 50 throughputs
    ∧ (schedulingGatherSummary throughputs).perc90 = percentileCanonical 90 throughputs
    ∧ (schedulingGatherSummary throughputs).perc99 = percentileCanonical 99 throughputs
    ∧ percentileCanonical 100 throughputs ∈ throughputs
    ∧ (∀ x ∈ throughputs, x ≤ percentileCanonical 100 throughputs)
    ∧ percentileCanonical 50 [(1 : ℚ), 2, 3, 4] = 2 := by
  have hn : 0 < throughputs.length := List.length_pos.mpr h
  have hmax := percentileCanonical_hundred_eq_max throughputs h
  refine ⟨?_, ?_, ?_, hmax.1, hmax.2, ?_⟩
  · rw [percentileCanonical_eq_unclamped 50 (by omega) throughputs]
    simp [schedulingGatherSummary, hn]
  · rw [percentileCanonical_eq_unclamped 90 (by omega) throughputs]
    simp [schedulingGatherSummary, hn]
  · rw [percentileCanonical_eq_unclamped 99 (by omega) throughputs]
    simp [schedulingGatherSummary, hn]
  · norm_num [percentileCanonical, percIndex, List.insertionSort, List.orderedInsert]

/-- Witness for C3 at the concrete series [1,2,3,4]. -/
theorem scheduling_percentiles_canonical_witness :
    ([(1 : ℚ), 2, 3, 4] ≠ [])
    ∧ ((schedulingGatherSummary [(1 : ℚ), 2, 3, 4]).perc50 =
          percentileCanonical 50 [(1 : ℚ), 2, 3, 4]
      ∧ (schedulingGatherSummary [(1 : ℚ), 2, 3, 4]).perc90 =
          percentileCanonical 90 [(1 : ℚ), 2, 3, 4]
      ∧ (schedulingGatherSummary [(1 : ℚ), 2, 3, 4]).perc99 =
          percentileCanonical 99 [(1 : ℚ), 2, 3, 4]
      ∧ percentileCanonical 100 [(1 : ℚ), 2, 3, 4] ∈ [(1 : ℚ), 2, 3, 4]
      ∧ (∀ x ∈ [(1 : ℚ), 2, 3, 4], x ≤ percentileCanonical 100 [(1 : ℚ), 2, 3, 4])
      ∧ percentileCanonical 50 [(1 : ℚ), 2, 3, 4] = 2) :=
  ⟨by simp, scheduling_percentiles_canonical [(1 : ℚ), 2, 3, 4] (by simp)⟩

/-! ### measurement/util/wait_for_pods.go -/

/-- One poll observation of WaitForPods: the listed pod count together with
the Running and Inactive counts of ComputePodsStartupStatus (an external
helper) for that listing. -/
structure PollObs where
  total : ℕ
  running : ℕ
  inactive : ℕ
deriving DecidableEq

/-- The timeout error of WaitForPods names the desired count and the
running count of the last computed pods status. -/
structure TimeoutErr where
  desired : ℕ
  lastRunning : ℕ
deriving DecidableEq

/-- The convergence test of WaitForPods: the listed pod count equals
running + inactive and the running count equals the desired count. -/
def podsConverged (desired : ℕ) (p : PollObs) : Bool :=
  p.total == p.running + p.inactive && p.running == desired

/-- The polling loop of WaitForPods over the polls delivered before stopCh
closes; `last` is podsStatus.Running of the previous iteration (zero
initially, from the zero value of PodsStartupStatus). -/
def waitForPodsLoop (desired last : ℕ) : List PollObs → Except TimeoutErr Unit
  | [] => .error ⟨desired, last⟩
  | p :: rest =>
    if podsConverged desired p then .ok ()
    else waitForPodsLoop desired p.running rest

/-- WaitForPods: the loop started from the zero-valued pods status. -/
def WaitForPods (desired : ℕ) (polls : List PollObs) : Except TimeoutErr Unit :=
  waitForPodsLoop desired 0 polls

/-- The running count of the last delivered poll (or the initial value when
no poll happened before the stop). -/
def lastObservedRunning (init : ℕ) (polls : List PollObs) : ℕ :=
  polls.foldl (fun _ p => p.running) init

theorem waitForPodsLoop_eq (desired : ℕ) (polls : List PollObs) :
    ∀ last, waitForPodsLoop desired last polls =
      if polls.any (podsConverged desired) then .ok ()
      else .error ⟨desired, lastObservedRunning last polls⟩ := by
  induction polls with
  | nil =>
    intro last
    simp [waitForPodsLoop, lastObservedRunning]
  | cons p rest ih =>
    intro last
    simp only [waitForPodsLoop, List.any_cons]
    by_cases hc : podsConverged desired p
    · simp [hc]
    · simp only [hc, Bool.false_or]
      rw [if_neg (by simp [hc]), ih p.running]
      rfl

/-- C4: WaitForPods succeeds iff some poll reaches running = desired with
running + inactive equal to the total observed count; when the stop fires
first it returns the timeout error carrying the desired count and the last
observed running count. -/
theorem waitForPods_spec (desired : ℕ) (polls : List PollObs) :
    (WaitForPods desired polls = .ok () ↔
      ∃ p ∈ polls, p.running = desired ∧ p.running + p.inactive = p.total)
    ∧ WaitForPods desired polls =
        (if polls.any (podsConverged desired) then .ok ()
         else .error ⟨desired, lastObservedRunning 0 polls⟩) := by
  have key := waitForPodsLoop_eq desired polls 0
  refine ⟨?_, key⟩
  rw [show WaitForPods desired polls = _ from key]
  by_cases hc : polls.any (podsConverged desired)
  · rw [if_pos hc]
    simp only [List.any_eq_true, podsConverged, Bool.and_eq_true, beq_iff_eq] at hc
    refine ⟨fun _ => ?_, fun _ => rfl⟩
    obtain ⟨p, hp, h1, h2⟩ := hc
    exact ⟨p, hp, h2, h1.symm⟩
  · rw [if_neg hc]
    constructor
    · intro h
      exact absurd h (by simp)
    · rintro ⟨p, hp, h1, h2⟩
      exact absurd (List.any_eq_true.mpr
        ⟨p, hp, by simp [podsConverged, h1, h2.symm]⟩) hc

/-! ### slos/api_responsiveness_prometheus.go -/

/-- measurementutil.LatencyMetric: the 50/90/99 latency quantiles of one
grouping key, as durations (nanoseconds). -/
structure LatencyMetric where
  perc50 : ℕ
  perc90 : ℕ
  perc99 : ℕ
deriving DecidableEq

/-- apiCall: one (resource, subresource, verb, scope) grouping key with its
latency quantiles and call count. -/
structure ApiCall where
  resource : String
  subresource : String
  verb : String
  scope : String
  latency : LatencyMetric
  count : ℕ
deriving DecidableEq

/-- getSLOThreshold.  The three thresholds (resourceThreshold,
clusterThreshold, namespaceThreshold) are constants of a sibling file not
present in this tree, so they are parameters here; only the selection logic
is this file's code. -/
def getSLOThreshold (resourceThreshold clusterThreshold namespaceThreshold : ℕ)
    (verb scope : String) : ℕ :=
  if verb ≠ "LIST" then resourceThreshold
  else if scope = "cluster" then clusterThreshold
  else namespaceThreshold

/-- The violation-accumulation and return logic of the API responsiveness
Gather, after the samples have been converted to apiCalls.
Latency.VerifyThreshold lives in an external util package and is the
`verify` parameter (none = pass, some msg = breach); `summaryContent`
stands for the pretty-printed perf data of the metrics.  The summary is
returned in both branches; a MetricViolationError is attached exactly when
badMetrics is nonempty. -/
def apiResponsivenessGatherResult
    (verify : LatencyMetric → ℕ → Option String)
    (resourceThreshold clusterThreshold namespaceThreshold : ℕ)
    (summaryContent : String) (apiCalls : List ApiCall) :
    String × Option String :=
  let badMetrics := apiCalls.filterMap
    (fun c => verify c.latency
      (getSLOThreshold resourceThreshold clusterThreshold namespaceThreshold c.verb c.scope))
  if 0 < badMetrics.length then
    (summaryContent, some ("there should be no high-latency requests, but: "
      ++ String.intercalate ", " badMetrics))
  else (summaryContent, none)

/-- C5: the API responsiveness gather returns its summary unconditionally
(the same summary in both branches, never replaced by the error), and
attaches a MetricViolationError iff at least one call exceeded its
threshold. -/
theorem apiResponsiveness_summary_with_violation
    (verify : LatencyMetric → ℕ → Option String)
    (resourceThreshold clusterThreshold namespaceThreshold : ℕ)
    (summaryContent : String) (apiCalls : List ApiCall) :
    (apiResponsivenessGatherResult verify resourceThreshold clusterThreshold
        namespaceThreshold summaryContent apiCalls).1 = summaryContent
    ∧ ((apiResponsivenessGatherResult verify resourceThreshold clusterThreshold
          namespaceThreshold summaryContent apiCalls).2 ≠ none ↔
        ∃ c ∈ apiCalls, verify c.latency
          (getSLOThreshold resourceThreshold clusterThreshold namespaceThreshold
            c.verb c.scope) ≠ none) := by
  unfold apiResponsivenessGatherResult
  set bad := apiCalls.filterMap
    (fun c => verify c.latency
      (getSLOThreshold resourceThreshold clusterThreshold namespaceThreshold c.verb c.scope))
    with hbad
  have hiff : 0 < bad.length ↔ ∃ c ∈ apiCalls, verify c.latency
      (getSLOThreshold resourceThreshold clusterThreshold namespaceThreshold
        c.verb c.scope) ≠ none := by
    rw [List.length_pos_iff_exists_mem]
    constructor
    · rintro ⟨b, hb⟩
      obtain ⟨c, hc1, hc2⟩ := List.mem_filterMap.mp hb
      exact ⟨c, hc1, by simp [hc2]⟩
    · rintro ⟨c, hc1, hc2⟩
      obtain ⟨b, hb⟩ := Option.ne_none_iff_exists'.mp hc2
      exact ⟨b, List.mem_filterMap.mpr ⟨c, hc1, hb⟩⟩
  by_cases hc : 0 < bad.length
  · rw [if_pos hc]
    exact ⟨rfl, by simpa using hiff.mp hc⟩
  · rw [if_neg hc]
    refine ⟨rfl, ?_⟩
    simp only [ne_eq, not_true_eq_false, false_iff]
    intro hex
    exact hc (hiff.mpr hex)

/-- C7: getSLOThreshold returns the resource threshold for any verb other
than LIST, the cluster threshold for LIST at cluster scope, and the
namespace threshold for LIST at any other scope. -/
theorem getSLOThreshold_spec (resourceThreshold clusterThreshold namespaceThreshold : ℕ)
    (verb scope : String) :
    (verb ≠ "LIST" →
      getSLOThreshold resourceThreshold clusterThreshold namespaceThreshold verb scope
        = resourceThreshold)
    ∧ (verb = "LIST" → scope = "cluster" →
      getSLOThreshold resourceThreshold clusterThreshold namespaceThreshold verb scope
        = clusterThreshold)
    ∧ (verb = "LIST" → scope ≠ "cluster" →
      getSLOThreshold resourceThreshold clusterThreshold namespaceThreshold verb scope
        = namespaceThreshold) :=
  ⟨fun h => by simp [getSLOThreshold, h],
   fun h1 h2 => by simp [getSLOThreshold, h1, h2],
   fun h1 h2 => by simp [getSLOThreshold, h1, h2]⟩

/-- Witness for C7 at the three concrete grouping keys of the spec. -/
theorem getSLOThreshold_spec_witness :
    (("GET" : String) ≠ "LIST" ∧ getSLOThreshold 1 2 3 "GET" "namespace" = 1)
    ∧ getSLOThreshold 1 2 3 "LIST" "cluster" = 2
    ∧ (("namespace" : String) ≠ "cluster" ∧ getSLOThreshold 1 2 3 "LIST" "namespace" = 3) :=
  ⟨⟨by decide, (getSLOThreshold_spec 1 2 3 "GET" "namespace").1 (by decide)⟩,
   (getSLOThreshold_spec 1 2 3 "LIST" "cluster").2.1 rfl rfl,
   ⟨by decide, (getSLOThreshold_spec 1 2 3 "LIST" "namespace").2.2 rfl (by decide)⟩⟩

/-! ### measurement/common/resource_usage.go -/

/-- measurementutil.ResourceConstraint: CPU ceiling (float64, modelled as a
rational) and memory ceiling (uint64, bytes). -/
structure ResourceConstraint where
  cpuConstraint : ℚ
  memoryConstraint : ℕ
deriving DecidableEq

/-- math.MaxFloat64 = (2^53 - 1) * 2^971. -/
def maxFloat64 : ℚ := (2 ^ 53 - 1) * 2 ^ 971

/-- math.MaxUint64 = 2^64 - 1. -/
def maxUint64 : ℕ := 2 ^ 64 - 1

/-- The constraint-defaulting applied at start: a zero (unset) CPU ceiling
becomes math.MaxFloat64 and a zero memory ceiling becomes math.MaxUint64. -/
def applyConstraintDefaults (c : ResourceConstraint) : ResourceConstraint :=
  { cpuConstraint := if c.cpuConstraint = 0 then maxFloat64 else c.cpuConstraint
    memoryConstraint := if c.memoryConstraint = 0 then maxUint64 else c.memoryConstraint }

/-- The resourceConstraints map after the start-time defaulting loop (Go
mutates every entry of the map in place, keys unchanged). -/
def normalizeConstraints (constraints : List (String × ResourceConstraint)) :
    List (String × ResourceConstraint) :=
  constraints.map (fun kv => (kv.1, applyConstraintDefaults kv.2))

/-- One entry of summary.Get("99"): the 99th-percentile usage of one
container; Name has the form node/container. -/
structure ContainerSummary where
  name : String
  cpu : ℚ
  mem : ℕ
deriving DecidableEq

/-- A violation message of verifySummary, kept structured: the Go code
formats exactly these fields into the message ("container N is using
observed/ceiling CPU", and the analogous memory message with both byte
counts divided by 1024*1024). -/
inductive ConstraintViolation
  | cpu (containerName : String) (observed ceiling : ℚ)
  | mem (containerName : String) (observedBytes ceilingBytes : ℕ)
deriving DecidableEq

/-- The container name a violation message names. -/
def violationSubject : ConstraintViolation → String
  | .cpu n _ _ => n
  | .mem n _ _ => n

/-- Go map lookup resourceConstraints[containerName] (comma-ok form). -/
def lookupConstraint (constraints : List (String × ResourceConstraint))
    (name : String) : Option ResourceConstraint :=
  (constraints.find? (fun kv => kv.1 == name)).map Prod.snd

/-- The body of the verifySummary loop for one container summary.
`split` stands for the Go standard library strings.Split(·, "/") (external
to this repository); the code takes element 1 of the split. -/
def containerViolations (split : String → List String)
    (constraints : List (String × ResourceConstraint))
    (cs : ContainerSummary) : List ConstraintViolation :=
  match lookupConstraint constraints ((split cs.name).getD 1 "") with
  | none => []
  | some constraint =>
    (if cs.cpu > constraint.cpuConstraint then
        [.cpu cs.name cs.cpu constraint.cpuConstraint] else [])
      ++ (if cs.mem > constraint.memoryConstraint then
        [.mem cs.name cs.mem constraint.memoryConstraint] else [])

/-- verifySummary: accumulate every violation over summary.Get("99") and
promote a nonempty list to a MetricViolationError (none means success). -/
def verifySummary (split : String → List String)
    (constraints : List (String × ResourceConstraint))
    (summary99 : List ContainerSummary) : Option (List ConstraintViolation) :=
  if 0 < (summary99.flatMap (containerViolations split constraints)).length then
    some (summary99.flatMap (containerViolations split constraints))
  else none

/-- The gather branch of the resource-usage Execute: with no initialized
gatherer it only logs and returns (nil, nil); otherwise it stops the
gatherer (summary99 is the 99th-percentile section of the summary,
`content` its pretty-printed JSON) and returns the summary together with
the verifySummary result. -/
def resourceUsageGatherAction (split : String → List String)
    (gathererInitialized : Bool)
    (constraints : List (String × ResourceConstraint))
    (summary99 : List ContainerSummary) (content : String) :
    Option String × Option (List ConstraintViolation) :=
  if gathererInitialized then
    (some content, verifySummary split constraints summary99)
  else (none, none)

theorem lookupConstraint_normalize
    (constraints : List (String × ResourceConstraint)) (name : String) :
    lookupConstraint (normalizeConstraints constraints) name
      = (lookupConstraint constraints name).map applyConstraintDefaults := by
  induction constraints with
  | nil => rfl
  | cons kv rest ih =>
    unfold lookupConstraint normalizeConstraints at *
    simp only [List.map_cons, List.find?_cons]
    by_cases h : kv.1 == name
    · simp [h]
    · simp only [h, cond_false]
      exact ih

theorem violationSubject_containerViolations (split : String → List String)
    (constraints : List (String × ResourceConstraint)) (cs : ContainerSummary) :
    ∀ v ∈ containerViolations split constraints cs, violationSubject v = cs.name := by
  intro v hv
  unfold containerViolations at hv
  cases hfind : lookupConstraint constraints ((split cs.name).getD 1 "") with
  | none => rw [hfind] at hv; simp at hv
  | some c =>
    rw [hfind] at hv
    simp only [List.mem_append] at hv
    rcases hv with hv | hv
    all_goals
      by_cases h1 : cs.cpu > c.cpuConstraint <;>
      by_cases h2 : cs.mem > c.memoryConstraint <;>
      simp [h1, h2] at hv <;>
      simp [hv, violationSubject]

/-- C6: at start every unset (zero) CPU ceiling becomes math.MaxFloat64 and
every unset memory ceiling becomes math.MaxUint64 (never left at zero); a
container with no constraint entry never contributes a message to any
Violation; a configured container whose 99th-percentile CPU exceeds its
ceiling contributes a message naming the container and both the observed
and ceiling values. -/
theorem resource_constraints_spec (split : String → List String)
    (constraints : List (String × ResourceConstraint))
    (summary99 : List ContainerSummary) :
    (∀ name c0, lookupConstraint constraints name = some c0 →
      lookupConstraint (normalizeConstraints constraints) name
        = some (applyConstraintDefaults c0))
    ∧ (∀ c0 : ResourceConstraint, c0.cpuConstraint = 0 →
        (applyConstraintDefaults c0).cpuConstraint = maxFloat64)
    ∧ (∀ c0 : ResourceConstraint, c0.memoryConstraint = 0 →
        (applyConstraintDefaults c0).memoryConstraint = maxUint64)
    ∧ (∀ c0 : ResourceConstraint, (applyConstraintDefaults c0).cpuConstraint ≠ 0
        ∧ (applyConstraintDefaults c0).memoryConstraint ≠ 0)
    ∧ (∀ cs ∈ summary99,
        lookupConstraint constraints ((split cs.name).getD 1 "") = none →
        ∀ l, verifySummary split constraints summary99 = some l →
          ∀ v ∈ l, violationSubject v ≠ cs.name)
    ∧ (∀ cs ∈ summary99, ∀ c,
        lookupConstraint constraints ((split cs.name).getD 1 "") = some c →
        cs.cpu > c.cpuConstraint →
        ∃ l, verifySummary split constraints summary99 = some l
          ∧ ConstraintViolation.cpu cs.name cs.cpu c.cpuConstraint ∈ l) := by
  refine ⟨?_, ?_, ?_, ?_, ?_, ?_⟩
  · intro name c0 h
    rw [lookupConstraint_normalize, h]
    rfl
  · intro c0 h
    simp [applyConstraintDefaults, h]
  · intro c0 h
    simp [applyConstraintDefaults, h]
  · intro c0
    constructor
    · by_cases h : c0.cpuConstraint = 0
      · simp [applyConstraintDefaults, h, maxFloat64]
        norm_num
      · simp [applyConstraintDefaults, h]
    · by_cases h : c0.memoryConstraint = 0 <;>
        simp [applyConstraintDefaults, h, maxUint64]
  · intro cs hcs hnone l hl v hv heq
    have hl2 : l = summary99.flatMap (containerViolations split constraints) := by
      unfold verifySummary at hl
      by_cases hc : 0 < (summary99.flatMap (containerViolations split constraints)).length
      · rw [if_pos hc] at hl
        exact (Option.some_injective _ hl).symm
      · rw [if_neg hc] at hl
        exact absurd hl (by simp)
    subst hl2
    obtain ⟨cs2, hcs2, hv2⟩ := List.mem_flatMap.mp hv
    have hsub := violationSubject_containerViolations split constraints cs2 v hv2
    have hname : cs2.name = cs.name := by rw [← hsub, heq]
    unfold containerViolations at hv2
    rw [hname, hnone] at hv2
    simp at hv2
  · intro cs hcs c hc hgt
    have hmem : ConstraintViolation.cpu cs.name cs.cpu c.cpuConstraint ∈
        containerViolations split constraints cs := by
      unfold containerViolations
      rw [hc]
      simp [hgt]
    have hmem2 : ConstraintViolation.cpu cs.name cs.cpu c.cpuConstraint ∈
        summary99.flatMap (containerViolations split constraints) :=
      List.mem_flatMap.mpr ⟨cs, hcs, hmem⟩
    have hlen : 0 < (summary99.flatMap (containerViolations split constraints)).length :=
      List.length_pos.mpr (List.ne_nil_of_mem hmem2)
    refine ⟨summary99.flatMap (containerViolations split constraints), ?_, hmem2⟩
    unfold verifySummary
    rw [if_pos hlen]

/-- Witness for C6: an etcd constraint with unset CPU gets MaxFloat64, and
a configured container at observed 1.2 CPU against ceiling 1 produces the
structured message naming the container and both values. -/
theorem resource_constraints_spec_witness :
    lookupConstraint [("etcd", (⟨0, 50⟩ : ResourceConstraint))] "etcd" = some ⟨0, 50⟩
    ∧ lookupConstraint (normalizeConstraints [("etcd", (⟨0, 50⟩ : ResourceConstraint))]) "etcd"
        = some (applyConstraintDefaults ⟨0, 50⟩)
    ∧ (applyConstraintDefaults (⟨0, 50⟩ : ResourceConstraint)).cpuConstraint = maxFloat64
    ∧ ∃ l, verifySummary (fun _ => ["node", "etcd"])
          [("etcd", (⟨1, 5⟩ : ResourceConstraint))]
          [⟨"node/etcd", 12/10, 0⟩] = some l
        ∧ ConstraintViolation.cpu "node/etcd" (12/10) 1 ∈ l := by
  have hlook : lookupConstraint [("etcd", (⟨0, 50⟩ : ResourceConstraint))] "etcd"
      = some ⟨0, 50⟩ := by
    simp [lookupConstraint]
  have hlook2 : lookupConstraint [("etcd", (⟨1, 5⟩ : ResourceConstraint))]
      (((fun _ => ["node", "etcd"]) ("node/etcd" : String)).getD 1 "") = some ⟨1, 5⟩ := by
    simp [lookupConstraint]
  refine ⟨hlook,
    (resource_constraints_spec (fun _ => ["node", "etcd"])
      [("etcd", ⟨0, 50⟩)] []).1 "etcd" ⟨0, 50⟩ hlook,
    (resource_constraints_spec (fun _ => ["node", "etcd"])
      [("etcd", ⟨0, 50⟩)] []).2.1 ⟨0, 50⟩ rfl, ?_⟩
  exact (resource_constraints_spec (fun _ => ["node", "etcd"])
      [("etcd", ⟨1, 5⟩)] [⟨"node/etcd", 12/10, 0⟩]).2.2.2.2.2
    ⟨"node/etcd", 12/10, 0⟩ (List.mem_singleton.mpr rfl) ⟨1, 5⟩ hlook2 (by norm_num)

/-! ### Measurement lifecycle: SchedulingThroughput, probes, ResourceUsage -/

/-- The state of the schedulingThroughputMeasurement struct (the stop
channel and pod store are external). -/
structure SchedulingThroughputState where
  schedulingThroughputs : List ℚ
  isRunning : Bool
deriving DecidableEq

/-- The Execute dispatch of the scheduling-throughput measurement.
`podStoreOk` is whether the external NewPodStore call succeeds.  Returns
((optional summary, optional error), next state).  The start branch, when
the measurement is already running, only logs and returns nil, nil without
touching the state; gather when not running returns the "measurement is
not running" error; gather otherwise stops the sampler (isRunning false),
sorts the series in place and builds the summary. -/
def schedulingExecute (podStoreOk : Bool) (s : SchedulingThroughputState)
    (action : String) :
    (Option SchedulingThroughput × Option String) × SchedulingThroughputState :=
  if action = "start" then
    if s.isRunning then ((none, none), s)
    else if podStoreOk then ((none, none), { s with isRunning := true })
    else ((none, some "pod store creation error"), s)
  else if action = "gather" then
    if s.isRunning = false then ((none, some "measurement is not running"), s)
    else ((some (schedulingGatherSummary s.schedulingThroughputs), none),
      { schedulingThroughputs := s.schedulingThroughputs.insertionSort (· ≤ ·),
        isRunning := false })
  else ((none, some ("unknown action " ++ action)), s)

/-- probesMeasurement state: startTime is the time.Time recorded by a
successful start, modelled as ℕ with 0 for the zero value (IsZero);
time.Now() is never the zero time. -/
structure ProbesState where
  startTime : ℕ
deriving DecidableEq

/-- probes start: rejects a second start while startTime is nonzero;
`setupOk` abstracts the initialize/namespace/manifest/wait steps and `now`
is the time recorded on success. -/
def probesStart (now : ℕ) (setupOk : Bool) (st : ProbesState) :
    Option String × ProbesState :=
  if st.startTime ≠ 0 then (some "measurement cannot be started twice", st)
  else if setupOk then (none, { startTime := now })
  else (some "setup error", st)

/-- probes gather: fails with the not-started error when startTime is
zero; the remainder of the body (query, threshold check, summary) is the
external `rest`. -/
def probesGather (st : ProbesState)
    (rest : Except String (String × Option String)) :
    Except String (String × Option String) :=
  if st.startTime = 0 then .error "measurement has not been started"
  else rest

/-- C8 counterexample: after a successful start of the scheduling
throughput measurement, executing start again returns no error and leaves
the state unchanged (the source logs "measurement already running" and
returns nil, nil), refuting the claim that every variant rejects a second
start with a non-nil error. -/
theorem scheduling_second_start_returns_no_error :
    (schedulingExecute true ⟨[], false⟩ "start").2.isRunning = true
    ∧ (schedulingExecute true (schedulingExecute true ⟨[], false⟩ "start").2 "start").1.2 = none
    ∧ (schedulingExecute true (schedulingExecute true ⟨[], false⟩ "start").2 "start").2
        = (schedulingExecute true ⟨[], false⟩ "start").2 :=
  ⟨rfl, rfl, rfl⟩

/-- C8 (amended): the probes measurement rejects a second start with a
non-nil error, while the scheduling-throughput measurement treats a second
start as a logged no-op: nil error, state unchanged, still running. -/
theorem start_twice_behavior (now now2 : ℕ) (hnow : now ≠ 0) (setupOk2 : Bool)
    (s : SchedulingThroughputState) (hs : s.isRunning = true) (podStoreOk : Bool) :
    (probesStart now2 setupOk2 (probesStart now true ⟨0⟩).2).1.isSome = true
    ∧ schedulingExecute podStoreOk s "start" = ((none, none), s) := by
  constructor
  · simp [probesStart, hnow]
  · simp [schedulingExecute, hs]

/-- Witness for the amended C8 at concrete states. -/
theorem start_twice_behavior_witness :
    ((1 : ℕ) ≠ 0 ∧ (⟨[], true⟩ : SchedulingThroughputState).isRunning = true)
    ∧ ((probesStart 2 false (probesStart 1 true ⟨0⟩).2).1.isSome = true
      ∧ schedulingExecute true ⟨[], true⟩ "start" = ((none, none), ⟨[], true⟩)) :=
  ⟨⟨by decide, rfl⟩, start_twice_behavior 1 2 (by decide) false ⟨[], true⟩ rfl true⟩

/-- C9 counterexample: the resource-usage gather executed before start
(gatherer still nil) returns nil summary and nil error after only logging,
not the "not running" error the claim requires of every variant. -/
theorem resource_usage_gather_before_start_no_error :
    resourceUsageGatherAction (fun _ => []) false [] [] "content" = (none, none) :=
  rfl

/-- C9 (amended): gather before start fails with a non-nil "not running"
error for the scheduling-throughput and probes measurements, while the
resource-usage measurement returns nil summary and nil error (logging
only). -/
theorem gather_before_start_behavior (podStoreOk : Bool)
    (s : SchedulingThroughputState) (hs : s.isRunning = false)
    (pst : ProbesState) (hp : pst.startTime = 0)
    (rest : Except String (String × Option String))
    (split : String → List String)
    (constraints : List (String × ResourceConstraint))
    (summary99 : List ContainerSummary) (content : String) :
    (schedulingExecute podStoreOk s "gather").1.2 = some "measurement is not running"
    ∧ probesGather pst rest = .error "measurement has not been started"
    ∧ resourceUsageGatherAction split false constraints summary99 content = (none, none) := by
  refine ⟨?_, ?_, rfl⟩
  · simp [schedulingExecute, hs]
  · simp [probesGather, hp]

/-- Witness for the amended C9 at concrete states. -/
theorem gather_before_start_behavior_witness :
    ((⟨[], false⟩ : SchedulingThroughputState).isRunning = false
      ∧ (⟨0⟩ : ProbesState).startTime = 0)
    ∧ ((schedulingExecute true ⟨[], false⟩ "gather").1.2 = some "measurement is not running"
      ∧ probesGather ⟨0⟩ (.ok ("", none)) = .error "measurement has not been started"
      ∧ resourceUsageGatherAction (fun _ => []) false [] [] "c" = (none, none)) :=
  ⟨⟨rfl, rfl⟩, gather_before_start_behavior true ⟨[], false⟩ rfl ⟨0⟩ rfl
    (.ok ("", none)) (fun _ => []) [] [] "c"⟩

theorem resourceUsageGather_pairing (split : String → List String)
    (constraints : List (String × ResourceConstraint))
    (summary99 : List ContainerSummary) (content : String) :
    (resourceUsageGatherAction split true constraints summary99 content).1 = some content
    ∧ (resourceUsageGatherAction split true constraints summary99 content).2
        = verifySummary split constraints summary99
    ∧ ((resourceUsageGatherAction split true constraints summary99 content).2 ≠ none ↔
        ∃ cs ∈ summary99, containerViolations split constraints cs ≠ []) := by
  refine ⟨rfl, rfl, ?_⟩
  show verifySummary split constraints summary99 ≠ none ↔ _
  unfold verifySummary
  by_cases hc : 0 < (summary99.flatMap (containerViolations split constraints)).length
  · rw [if_pos hc]
    simp only [ne_eq, reduceCtorEq, not_false_eq_true, true_iff]
    obtain ⟨v, hv⟩ := List.length_pos_iff_exists_mem.mp hc
    obtain ⟨cs, hcs, hv2⟩ := List.mem_flatMap.mp hv
    exact ⟨cs, hcs, List.ne_nil_of_mem hv2⟩
  · rw [if_neg hc]
    simp only [ne_eq, not_true_eq_false, false_iff, not_exists]
    rintro cs ⟨hcs, hne⟩
    obtain ⟨v, hv⟩ := List.exists_mem_of_ne_nil _ hne
    exact hc (List.length_pos_iff_exists_mem.mpr
      ⟨v, List.mem_flatMap.mpr ⟨cs, hcs, hv⟩⟩)

/-- C5: a gather that produces a valid summary never discards it on an SLO
or constraint breach.  The API-responsiveness Gather returns its summary
unconditionally and attaches a MetricViolationError iff at least one call
exceeded its threshold; the resource-usage gather (with an initialized
gatherer) likewise returns its summary together with the verifySummary
result, which is a MetricViolationError iff at least one container
breached a configured constraint and nil otherwise. -/
theorem gather_summary_with_violation
    (verify : LatencyMetric → ℕ → Option String)
    (resourceThreshold clusterThreshold namespaceThreshold : ℕ)
    (summaryContent : String) (apiCalls : List ApiCall)
    (split : String → List String)
    (constraints : List (String × ResourceConstraint))
    (summary99 : List ContainerSummary) (content : String) :
    (apiResponsivenessGatherResult verify resourceThreshold clusterThreshold
        namespaceThreshold summaryContent apiCalls).1 = summaryContent
    ∧ ((apiResponsivenessGatherResult verify resourceThreshold clusterThreshold
          namespaceThreshold summaryContent apiCalls).2 ≠ none ↔
        ∃ c ∈ apiCalls, verify c.latency
          (getSLOThreshold resourceThreshold clusterThreshold namespaceThreshold
            c.verb c.scope) ≠ none)
    ∧ (resourceUsageGatherAction split true constraints summary99 content).1 = some content
    ∧ (resourceUsageGatherAction split true constraints summary99 content).2
        = verifySummary split constraints summary99
    ∧ ((resourceUsageGatherAction split true constraints summary99 content).2 ≠ none ↔
        ∃ cs ∈ summary99, containerViolations split constraints cs ≠ []) :=
  ⟨(apiResponsiveness_summary_with_violation verify resourceThreshold clusterThreshold
      namespaceThreshold summaryContent apiCalls).1,
   (apiResponsiveness_summary_with_violation verify resourceThreshold clusterThreshold
      namespaceThreshold summaryContent apiCalls).2,
   (resourceUsageGather_pairing split constraints summary99 content).1,
   (resourceUsageGather_pairing split constraints summary99 content).2.1,
   (resourceUsageGather_pairing split constraints summary99 content).2.2⟩
